import Mathlib

/-!
Verification of `Generic_webscrape/bbc_scraper.py` against its specification.

The Python program is embedded shallowly:
* HTML documents are modelled as forests of `Node` (elements with a tag name,
  an attribute association list, and children, or text nodes), matching what
  BeautifulSoup exposes of a parsed page.
* The BeautifulSoup queries used by the scraper (`find`, `find_all`, `select`
  with an attribute-substring test, `find_next_sibling`, `get_text(strip=True)`,
  string-pattern search with `.parent`) are defined as pure functions on this
  forest, in document (pre-)order exactly as BeautifulSoup traverses it.
* `requests.get` plus `raise_for_status` is modelled as a parameter of type
  `FetchRes` (a fetched-and-parsed document or a transport/HTTP error), and
  `urllib.parse.urljoin base_url` as an abstract `resolve : String → String`,
  since both are external collaborators of the program.
* The filesystem touched by the driver is an explicit association list from
  file names to CSV rows; written JSON outputs are collected in a list.
* A Python expression that can raise (the unguarded `tag['content']`
  subscripts) is embedded in `Except String`, the error carrying the KeyError.
-/

/-- A node of the parsed HTML document: an element with tag name, attributes
and children, or a bare text node (a BeautifulSoup `NavigableString`). -/
inductive Node where
  | elem (tag : String) (attrs : List (String × String)) (children : List Node)
  | text (s : String)

/-- Python `str.strip` whitespace (ASCII subset used by the fixtures). -/
def isPyWs (c : Char) : Bool :=
  c = ' ' || c = '\t' || c = '\n' || c = '\r' || c = '\x0b' || c = '\x0c'

/-- Python `str.strip()`: drop leading and trailing whitespace. -/
def pyStrip (s : String) : String :=
  (((s.toList.dropWhile isPyWs).reverse.dropWhile isPyWs).reverse).asString

/-- Does `pat` occur at the head of `l`? -/
def headMatch : List Char → List Char → Bool
  | [], _ => true
  | _ :: _, [] => false
  | a :: as, b :: bs => a == b && headMatch as bs

/-- Does `needle` occur somewhere in `l`? (Python `in` on strings.) -/
def hasSubList (needle : List Char) : List Char → Bool
  | [] => headMatch needle []
  | c :: rest => headMatch needle (c :: rest) || hasSubList needle rest

/-- Python `needle in hay` for strings. -/
def strContains (hay needle : String) : Bool :=
  hasSubList needle.toList hay.toList

/-- Left-to-right non-overlapping replacement, Python `str.replace` on a
nonempty pattern. `fuel` is an upper bound on the list length, so the
second case is never reached from `pyReplace`. -/
def replaceAux (pat rep : List Char) : Nat → List Char → List Char
  | _, [] => []
  | 0, l => l
  | fuel + 1, c :: rest =>
    if pat ≠ [] && headMatch pat (c :: rest) then
      rep ++ replaceAux pat rep fuel (List.drop (pat.length - 1) rest)
    else c :: replaceAux pat rep fuel rest

/-- Python `s.replace(pat, rep)` for a nonempty pattern. -/
def pyReplace (s pat rep : String) : String :=
  (replaceAux pat.toList rep.toList s.toList.length s.toList).asString

/-- Python `str.lower()` (ASCII, as used by `re.IGNORECASE` matching here). -/
def strToLower (s : String) : String :=
  (s.toList.map Char.toLower).asString

/-- Attribute lookup on an element's attribute list (`tag.get(key)`). -/
def attrGet (attrs : List (String × String)) (k : String) : Option String :=
  (attrs.find? (fun p => p.1 == k)).map (·.2)

/-- The children of a node (a text node has none). -/
def childrenOf : Node → List Node
  | .elem _ _ cs => cs
  | .text _ => []

/-- Is the node an element with the given tag name? -/
def isTag (name : String) : Node → Bool
  | .elem t _ _ => t == name
  | .text _ => false

/-- Does the element carry attribute `k` with exact value `v`?
(BeautifulSoup `find(tag, {k: v})` attribute filter.) -/
def hasAttrVal (k v : String) : Node → Bool
  | .elem _ attrs _ => attrGet attrs k == some v
  | .text _ => false

mutual

/-- All descendant text-node contents of one node, in document order. -/
def nodeTexts : Node → List String
  | .text s => [s]
  | .elem _ _ cs => textStringsF cs

/-- All descendant text-node contents of a forest, in document order
(BeautifulSoup `_all_strings`). -/
def textStringsF : List Node → List String
  | [] => []
  | n :: rest => nodeTexts n ++ textStringsF rest

end

/-- BeautifulSoup `get_text(strip=True)` over a forest: strip every descendant
string, drop the ones that become empty, concatenate. -/
def getTextStripF (ns : List Node) : String :=
  String.join (((textStringsF ns).map pyStrip).filter (fun s => s ≠ ""))

/-- BeautifulSoup `node.get_text(strip=True)`. -/
def getTextStrip (n : Node) : String :=
  String.join (((nodeTexts n).map pyStrip).filter (fun s => s ≠ ""))

mutual

/-- All strict descendants of one node satisfying `p`, in document order. -/
def findAllN (p : Node → Bool) : Node → List Node
  | .text _ => []
  | .elem _ _ cs => findAllF p cs

/-- All nodes of the forest satisfying `p`, in document (pre-)order:
BeautifulSoup `find_all(...)` / `select(...)` result order. -/
def findAllF (p : Node → Bool) : List Node → List Node
  | [] => []
  | n :: rest => (if p n then [n] else []) ++ findAllN p n ++ findAllF p rest

end

/-- First node of the forest satisfying `p` in document order
(BeautifulSoup `find`). -/
def findF (p : Node → Bool) (ns : List Node) : Option Node :=
  (findAllF p ns).head?

mutual

/-- Search strictly inside one node for the first `p`-node with its siblings. -/
def findWithSiblingsN (p : Node → Bool) : Node → Option (Node × List Node)
  | .text _ => none
  | .elem _ _ cs => findWithSiblings p cs

/-- First node satisfying `p` in document order, together with its following
siblings (needed for `find_next_sibling`). -/
def findWithSiblings (p : Node → Bool) : List Node → Option (Node × List Node)
  | [] => none
  | n :: rest =>
    if p n then some (n, rest)
    else
      match findWithSiblingsN p n with
      | some r => some r
      | none => findWithSiblings p rest

end

mutual

/-- BeautifulSoup `tag.string`: the sole string content of an element, chasing
single-child chains; `none` when the element has zero or several children. -/
def nodeString : Node → Option String
  | .text s => some s
  | .elem _ _ cs => soleString cs

/-- The string of a children list: defined only for a singleton child. -/
def soleString : List Node → Option String
  | [c] => nodeString c
  | _ => none

end

mutual

/-- One step of the text-pattern search: a matching text node reports the
enclosing parent's stripped text `parentTxt`; an element is searched inside,
itself becoming the parent. -/
def creditScanN (p : String → Bool) (parentTxt : String) : Node → Option String
  | .text s => if p s then some parentTxt else none
  | .elem _ _ cs => creditScan p (getTextStripF cs) cs

/-- First text node of the forest (document order) whose content satisfies
`p`; returns `get_text(strip=True)` of its parent. `parentTxt` is that of the
enclosing parent (the whole soup at top level), matching `found.parent`. -/
def creditScan (p : String → Bool) (parentTxt : String) : List Node → Option String
  | [] => none
  | n :: rest =>
    match creditScanN p parentTxt n with
    | some r => some r
    | none => creditScan p parentTxt rest

end

/-!
Article Extractor: the seven extraction rules of `scrape_article_metadata`
(bbc_scraper.py lines 80–124), applied to a fetched, parsed document.
-/

/-- The metadata record built by `scrape_article_metadata`; `tags` is already
the comma-joined string, exactly as the Python dict stores `", ".join(tags)`. -/
structure ArticleMetadata where
  title : String
  summary : String
  publish_date : String
  article_image : String
  article_content : String
  image_credit : String
  tags : String
deriving Repr, DecidableEq

/-- Line 80: `soup.find('h1').get_text(strip=True) if soup.find('h1') else
"Title not found"`. -/
def title_rule (doc : List Node) : String :=
  match findF (isTag "h1") doc with
  | some h => getTextStrip h
  | none => "Title not found"

/-- Lines 82–83: `summary_tag = soup.find('meta', {'name': 'description'})`;
`summary_tag['content']` — the subscript raises `KeyError` when the matched
tag has no `content` attribute, hence the `Except`. -/
def summary_rule (doc : List Node) : Except String String :=
  match findF (fun n => isTag "meta" n && hasAttrVal "name" "description" n) doc with
  | some t =>
    match t with
    | .elem _ attrs _ =>
      match attrGet attrs "content" with
      | some v => .ok v
      | none => .error "KeyError: content"
    | .text _ => .error "KeyError: content"
  | none => .ok "Summary not found"

/-- Lines 86–87: text of the first `time` element, else the sentinel. -/
def publish_date_rule (doc : List Node) : String :=
  match findF (isTag "time") doc with
  | some t => getTextStrip t
  | none => "Publish date not found"

/-- Lines 89–90: `image_tag = soup.find('meta', {'property': 'og:image'})`;
`image_tag['content']` — same unguarded subscript as the summary rule. -/
def article_image_rule (doc : List Node) : Except String String :=
  match findF (fun n => isTag "meta" n && hasAttrVal "property" "og:image" n) doc with
  | some t =>
    match t with
    | .elem _ attrs _ =>
      match attrGet attrs "content" with
      | some v => .ok v
      | none => .error "KeyError: content"
    | .text _ => .error "KeyError: content"
  | none => .ok "Image not found"

/-- Lines 93–99: find `<main id="main-content">`; join the nonempty stripped
texts of all `p` descendants with newlines; else the sentinel. The Python
comprehension `[p.get_text(strip=True) for p in paragraphs if
p.get_text(strip=True)]` maps first and keeps the truthy (nonempty) values. -/
def article_content_rule (doc : List Node) : String :=
  match findF (fun n => isTag "main" n && hasAttrVal "id" "main-content" n) doc with
  | some m =>
    let paragraphs := findAllF (isTag "p") (childrenOf m)
    String.intercalate "\n" ((paragraphs.map getTextStrip).filter (fun s => s ≠ ""))
  | none => "Article content not found."

/-- The `re.compile(r'Image (source|credit)', re.IGNORECASE)` filter:
`pattern.search` succeeds iff the string contains "image source" or
"image credit" case-insensitively. -/
def matchesCredit (s : String) : Bool :=
  strContains (strToLower s) "image source" || strContains (strToLower s) "image credit"

/-- Lines 102–103: first matching text node's parent, `get_text(strip=True)`;
at top level the parent is the soup itself, whose text is the whole document's. -/
def image_credit_rule (doc : List Node) : String :=
  match creditScan matchesCredit (getTextStripF doc) doc with
  | some t => t
  | none => "Image credit not found"

/-- The `soup.find('h2', string='Related Topics')` filter: an `h2` element
whose sole string content (BeautifulSoup `.string`) is exactly the given text. -/
def isRelatedTopicsH2 (n : Node) : Bool :=
  isTag "h2" n && nodeString n == some "Related Topics"

/-- Lines 106–112: the heading's first following sibling `ul`, then the
stripped text of every `a` inside it, in document order; `[]` when the heading
or the list is absent. -/
def tags_rule (doc : List Node) : List String :=
  match findWithSiblings isRelatedTopicsH2 doc with
  | none => []
  | some (_, sibs) =>
    match sibs.find? (isTag "ul") with
    | none => []
    | some ul => (findAllF (isTag "a") (childrenOf ul)).map getTextStrip

/-- Lines 80–124 after a successful fetch: build the metadata dict. Python
evaluates the rules top to bottom, so a `KeyError` in the summary rule
pre-empts one in the image rule; every rule is a pure function of `doc`. -/
def extractMetadata (doc : List Node) : Except String ArticleMetadata :=
  match summary_rule doc with
  | .error e => .error e
  | .ok summary =>
    match article_image_rule doc with
    | .error e => .error e
    | .ok img =>
      .ok { title := title_rule doc
            summary := summary
            publish_date := publish_date_rule doc
            article_image := img
            article_content := article_content_rule doc
            image_credit := image_credit_rule doc
            tags := String.intercalate ", " (tags_rule doc) }

/-!
Link Collector: `scrape_category_to_csv` (bbc_scraper.py lines 13–57), and the
driver `process_csv_to_json` / `__main__` (lines 126–174).
-/

/-- A row of the handoff CSV, below the `website, category, article_url`
header (line 46): the program writes `[base_url, category, full_url]`. -/
structure LinkRecord where
  website : String
  category : String
  article_url : String
deriving Repr, DecidableEq

/-- The element's `href` attribute (`link.get('href')`). -/
def hrefOf : Node → Option String
  | .elem _ attrs _ => attrGet attrs "href"
  | .text _ => none

/-- The CSS selector `a[href*="/article/"]` of line 36: an anchor whose
`href` attribute contains the substring `/article/`. -/
def isArticleAnchor (n : Node) : Bool :=
  isTag "a" n &&
    (match hrefOf n with
     | some h => strContains h "/article/"
     | none => false)

/-- Line 36: `article_links = soup.select('a[href*="/article/"]')`. -/
def article_links (doc : List Node) : List Node :=
  findAllF isArticleAnchor doc

/-- Lines 48–55: the write loop. `seen` is `seen_urls`; a missing or empty
`href` is skipped by the `if relative_url:` truthiness test; the resolved URL
is emitted once, on first sight. `resolve` stands for `urljoin base_url`. -/
def collectLoop (base_url category : String) (resolve : String → String) :
    List Node → List String → List LinkRecord
  | [], _ => []
  | link :: rest, seen =>
    match hrefOf link with
    | none => collectLoop base_url category resolve rest seen
    | some h =>
      if h = "" then collectLoop base_url category resolve rest seen
      else
        let full := resolve h
        if full ∈ seen then collectLoop base_url category resolve rest seen
        else ⟨base_url, category, full⟩ :: collectLoop base_url category resolve rest (full :: seen)

/-- The rows written to the handoff CSV on the success path. -/
def collectRecords (base_url category : String) (resolve : String → String)
    (doc : List Node) : List LinkRecord :=
  collectLoop base_url category resolve (article_links doc) []

/-- How one run of the Link Collector ends, read off its three print/return
paths: the caught `requests.RequestException` (lines 26–28), the empty-result
warning (lines 38–40), or the success message after writing (line 57). -/
inductive CollectOutcome where
  | fetchError (cause : String)
  | noLinksFound
  | saved (count : Nat)
deriving Repr, DecidableEq

/-- The filesystem the two stages share: handoff CSV files by name. -/
structure FileSys where
  csvFiles : List (String × List LinkRecord)
deriving Repr, DecidableEq

/-- Reading a CSV file; `none` is `FileNotFoundError`. -/
def readCsvFile (fs : FileSys) (name : String) : Option (List LinkRecord) :=
  (fs.csvFiles.find? (fun p => p.1 == name)).map (·.2)

/-- Opening with mode `'w'` (line 44) truncates: the file's rows are replaced. -/
def writeCsvFile (fs : FileSys) (name : String) (rows : List LinkRecord) : FileSys :=
  ⟨(name, rows) :: fs.csvFiles.filter (fun p => p.1 != name)⟩

/-- Outcome of `requests.get(...)` followed by `raise_for_status()` and
parsing: a parsed document, or a `requests.RequestException` cause (covering
transport errors, timeouts and non-2xx statuses). External collaborator,
passed in as a parameter. -/
inductive FetchRes where
  | ok (doc : List Node)
  | err (cause : String)

/-- Lines 13–57: on fetch failure print and return, touching no file; on zero
selected anchors print and return, touching no file; otherwise write the
header and the deduplicated rows to `csv_name`. -/
def scrape_category_to_csv (fetchIndex : FetchRes) (resolve : String → String)
    (base_url category csv_name : String) (fs : FileSys) : FileSys × CollectOutcome :=
  match fetchIndex with
  | .err e => (fs, .fetchError e)
  | .ok doc =>
    if (article_links doc).isEmpty then (fs, .noLinksFound)
    else
      let rows := collectRecords base_url category resolve doc
      (writeCsvFile fs csv_name rows, .saved rows.length)

/-- Lines 62–124: `scrape_article_metadata`. A fetch failure prints and
returns `None` (lines 71–73); otherwise the seven rules run on the parsed
document (and may raise `KeyError`, the `.error` case). -/
def scrape_article_metadata (fetch : String → FetchRes) (article_url : String) :
    Option (Except String ArticleMetadata) :=
  match fetch article_url with
  | .err _ => none
  | .ok doc => some (extractMetadata doc)

/-- One JSON output written by `process_csv_to_json`: its path and content. -/
structure OutputFile where
  path : String
  content : ArticleMetadata
deriving Repr, DecidableEq

/-- Python `\w` on the fixtures' ASCII alphabet: letters, digits, underscore. -/
def isWordChar (c : Char) : Bool :=
  c.isAlphanum || c = '_'

/-- Line 150: `re.sub(r'[^\w-]', '_', metadata['title'])[:50]` — every
character that is neither a word character nor a hyphen is REPLACED by an
underscore, and the result is truncated to 50 characters. -/
def safe_title (t : String) : String :=
  ((t.toList.map (fun c => if isWordChar c || c = '-' then c else '_')).take 50).asString

/-- Line 153: `f"{website_name}_{category}_{safe_title}_{timestamp}.json"`. -/
def outputFileName (website_name category title timestamp : String) : String :=
  website_name ++ "_" ++ category ++ "_" ++ safe_title title ++ "_" ++ timestamp ++ ".json"

/-- Line 141: the fixed output subdirectory. -/
def output_dir : String := "json_output"

/-- Line 154: `os.path.join(output_dir, filename)`. -/
def outputPath (website_name category title timestamp : String) : String :=
  output_dir ++ "/" ++ outputFileName website_name category title timestamp

/-- Lines 145–159: the per-article loop. `ts k` is `datetime.now()` formatted
`%Y%m%d%H%M%S` at the k-th successful write. Returns the files written and,
when a rule raised (`KeyError`), the uncaught exception that aborted the
loop; files written before the crash are kept. -/
def processRows (fetch : String → FetchRes) (ts : Nat → String)
    (website_name category : String) :
    List LinkRecord → Nat → List OutputFile × Option String
  | [], _ => ([], none)
  | row :: rest, k =>
    match scrape_article_metadata fetch row.article_url with
    | none => processRows fetch ts website_name category rest k
    | some (.error e) => ([], some e)
    | some (.ok m) =>
      let out : OutputFile := ⟨outputPath website_name category m.title (ts k), m⟩
      let next := processRows fetch ts website_name category rest (k + 1)
      (out :: next.1, next.2)

/-- How `process_csv_to_json` ends: the caught `FileNotFoundError`
(lines 135–137), or a run over the rows after `os.makedirs(output_dir,
exist_ok=True)` (line 142) has created the output directory. -/
inductive ProcResult where
  | missingCsv
  | ran (dirCreated : Bool) (outs : List OutputFile) (err : Option String)
deriving Repr, DecidableEq

/-- Lines 126–159: read the handoff CSV (missing file is caught and reported),
create the output directory, process every row. -/
def process_csv_to_json (fetch : String → FetchRes) (ts : Nat → String)
    (fs : FileSys) (csv_name website_name category : String) : ProcResult :=
  match readCsvFile fs csv_name with
  | none => .missingCsv
  | some rows =>
    let r := processRows fetch ts website_name category rows 0
    .ran true r.1 r.2

/-- Line 171: `base_url.replace('https://','').replace('www.','')
.split('/')[0].replace('.','_')`. -/
def website_name_of (base_url : String) : String :=
  pyReplace (((pyReplace (pyReplace base_url "https://" "") "www." "").toList.takeWhile
      (fun c => c ≠ '/')).asString) "." "_"

/-- Lines 161–174: `__main__` runs the Link Collector and then, with no
condition on its outcome, the processing stage on the same `csv_name`. -/
def mainRun (fetchIndex : FetchRes) (fetchArticle : String → FetchRes)
    (resolve : String → String) (ts : Nat → String)
    (base_url category csv_name : String) (fs : FileSys) :
    FileSys × CollectOutcome × ProcResult :=
  let s1 := scrape_category_to_csv fetchIndex resolve base_url category csv_name fs
  let pr := process_csv_to_json fetchArticle ts s1.1 csv_name (website_name_of base_url) category
  (s1.1, s1.2, pr)

/-!
Definitions written from the claims' words, to be compared with the embedded
code, and concrete fixture documents used by counterexamples and witnesses.
-/

/-- The content rule as claim C5 words it: the container is "an element with
id main-content" — any tag; paragraphs with empty trimmed text are dropped,
the texts of the survivors are joined with newlines. -/
def article_content_claimC5 (doc : List Node) : String :=
  match findF (hasAttrVal "id" "main-content") doc with
  | some m =>
    let paragraphs := findAllF (isTag "p") (childrenOf m)
    String.intercalate "\n"
      ((paragraphs.filter (fun p => getTextStrip p ≠ "")).map getTextStrip)
  | none => "Article content not found."

/-- The content rule as amended: the container must be a `main` element with
id "main-content", as in line 93 of the code; the rest as the claim words it. -/
def article_content_amended (doc : List Node) : String :=
  match findF (fun n => isTag "main" n && hasAttrVal "id" "main-content" n) doc with
  | some m =>
    let paragraphs := findAllF (isTag "p") (childrenOf m)
    String.intercalate "\n"
      ((paragraphs.filter (fun p => getTextStrip p ≠ "")).map getTextStrip)
  | none => "Article content not found."

/-- Title sanitisation as claim C9 words it: "stripping everything but word
characters and hyphens" deletes the offending characters. -/
def sanitize_claimC9 (t : String) : String :=
  ((t.toList.filter (fun c => isWordChar c || c = '-')).take 50).asString

/-- A well-formed article fixture exercising all seven rules. -/
def docA : List Node :=
  [ .elem "html" [] [
      .elem "head" [] [
        .elem "meta" [("name", "description"), ("content", "A summary")] [],
        .elem "meta" [("property", "og:image"), ("content", "http://img")] [] ],
      .elem "body" [] [
        .elem "h1" [] [.text "Big News"],
        .elem "time" [] [.text "2024-01-01"],
        .elem "main" [("id", "main-content")] [
          .elem "p" [] [.text " First. "],
          .elem "div" [] [.elem "p" [] [.text "Second."]],
          .elem "p" [] [.text "   "] ],
        .elem "span" [] [.text "Image source, Getty"],
        .elem "h2" [] [.text "Related Topics"],
        .elem "ul" [] [
          .elem "li" [] [.elem "a" [] [.text "Business"]],
          .elem "li" [] [.elem "a" [] [.text "Markets"]] ] ] ] ]

/-- The fixture of `docA` with the `h1` removed (claim C7). -/
def docNoH1 : List Node :=
  [ .elem "html" [] [
      .elem "head" [] [
        .elem "meta" [("name", "description"), ("content", "A summary")] [],
        .elem "meta" [("property", "og:image"), ("content", "http://img")] [] ],
      .elem "body" [] [
        .elem "time" [] [.text "2024-01-01"],
        .elem "main" [("id", "main-content")] [
          .elem "p" [] [.text " First. "],
          .elem "div" [] [.elem "p" [] [.text "Second."]],
          .elem "p" [] [.text "   "] ],
        .elem "span" [] [.text "Image source, Getty"],
        .elem "h2" [] [.text "Related Topics"],
        .elem "ul" [] [
          .elem "li" [] [.elem "a" [] [.text "Business"]],
          .elem "li" [] [.elem "a" [] [.text "Markets"]] ] ] ] ]

/-- A document whose meta-description tag has no `content` attribute: the
input on which the summary rule's `summary_tag['content']` raises. -/
def docKeyErr : List Node :=
  [ .elem "meta" [("name", "description")] [] ]

/-- A document whose content container has id "main-content" on a `div`, not
a `main` element (claim C5). -/
def docDivMain : List Node :=
  [ .elem "div" [("id", "main-content")] [ .elem "p" [] [.text "x"] ] ]

/-- An index-page fixture: three article anchors, one a duplicate, plus a
non-matching navigation anchor (claim C1 witness; spec §8 example). -/
def docIndex : List Node :=
  [ .elem "body" [] [
      .elem "a" [("href", "/article/a")] [.text "A"],
      .elem "a" [("href", "/article/a")] [.text "A again"],
      .elem "a" [("href", "/article/b")] [.text "B"],
      .elem "a" [("href", "/news")] [.text "nav"] ] ]


/-- A resolver standing for `urljoin "https://example.com"` on the site's
root-relative references. -/
def resolveEx (h : String) : String := "https://example.com" ++ h

/-- The empty filesystem. -/
def fsEmpty : FileSys := ⟨[]⟩

/-- A handoff row left behind by an earlier run (claim C3). -/
def staleRow : LinkRecord :=
  ⟨"https://example.com", "culture", "https://example.com/article/old"⟩

/-- A filesystem still holding `links.csv` from an earlier run. -/
def fsStale : FileSys := ⟨[("links.csv", [staleRow])]⟩

/-- An article fetcher for which every URL serves the `docA` fixture. -/
def fetchA : String → FetchRes := fun _ => .ok docA

/-- A fixed clock. -/
def tsFix : Nat → String := fun _ => "20240101000000"

/-- The metadata `docA` extracts to. -/
def metaA : ArticleMetadata :=
  ⟨"Big News", "A summary", "2024-01-01", "http://img",
   "First.\nSecond.", "Image source, Getty", "Business, Markets"⟩

/-- The metadata `docNoH1` extracts to: title falls back, the rest is kept. -/
def metaNoH1 : ArticleMetadata :=
  ⟨"Title not found", "A summary", "2024-01-01", "http://img",
   "First.\nSecond.", "Image source, Getty", "Business, Markets"⟩

/-- An index-page fixture whose two article anchors resolve to two distinct
absolute URLs (claim C1 witness). -/
def docIndex2 : List Node :=
  [ .elem "body" [] [
      .elem "a" [("href", "/article/a")] [.text "A"],
      .elem "a" [("href", "/article/b")] [.text "B"],
      .elem "a" [("href", "/news")] [.text "nav"] ] ]

/-- Handoff rows for the batch-isolation scenario (claim C4). -/
def rowGood1 : LinkRecord :=
  ⟨"https://example.com", "culture", "https://example.com/article/a"⟩

/-- The row whose article URL the transport will fail on. -/
def rowBad : LinkRecord :=
  ⟨"https://example.com", "culture", "https://example.com/article/bad"⟩

/-- A row after the failing one. -/
def rowGood2 : LinkRecord :=
  ⟨"https://example.com", "culture", "https://example.com/article/b"⟩

/-- A fetcher failing with HTTP 500 on `rowBad` and serving `docA` elsewhere. -/
def fetchMixed : String → FetchRes := fun u =>
  if u = "https://example.com/article/bad" then .err "HTTP 500" else .ok docA

/-!
General lemmas about the embedded code.
-/

mutual

theorem findAllN_mem (p : Node → Bool) : ∀ (n : Node), ∀ m ∈ findAllN p n, p m = true
  | .text _ => by simp [findAllN]
  | .elem t a cs => by simpa [findAllN] using findAllF_mem p cs

theorem findAllF_mem (p : Node → Bool) : ∀ (ns : List Node), ∀ m ∈ findAllF p ns, p m = true
  | [] => by simp [findAllF]
  | n :: rest => by
    intro m hm
    simp only [findAllF, List.mem_append] at hm
    rcases hm with (h1 | h2) | h3
    · by_cases hp : p n
      · simp only [if_pos hp, List.mem_singleton] at h1
        subst h1; exact hp
      · simp [if_neg hp] at h1
    · exact findAllN_mem p n m h2
    · exact findAllF_mem p rest m h3

end

/-- A selected anchor carries an `href` containing `/article/`. -/
theorem isArticleAnchor_href {n : Node} (h : isArticleAnchor n = true) :
    ∃ s, hrefOf n = some s ∧ strContains s "/article/" = true := by
  unfold isArticleAnchor at h
  cases hn : hrefOf n with
  | none => rw [hn] at h; simp at h
  | some s =>
    rw [hn] at h
    simp only [Bool.and_eq_true] at h
    exact ⟨s, rfl, h.2⟩

/-- A string containing `/article/` is nonempty (so it passes the
`if relative_url:` truthiness test). -/
theorem strContains_article_ne_empty {s : String}
    (h : strContains s "/article/" = true) : s ≠ "" := by
  intro he
  subst he
  exact absurd h (by decide)

/-- The write loop never emits a URL from `seen`, and the URLs it emits are
pairwise distinct: exact-string deduplication. -/
theorem collectLoop_nodup (base cat : String) (resolve : String → String) :
    ∀ (links : List Node) (seen : List String),
      (∀ u ∈ (collectLoop base cat resolve links seen).map (·.article_url), u ∉ seen) ∧
      ((collectLoop base cat resolve links seen).map (·.article_url)).Nodup := by
  intro links
  induction links with
  | nil => intro seen; simp [collectLoop]
  | cons n rest ih =>
    intro seen
    cases hn : hrefOf n with
    | none => simpa only [collectLoop, hn] using ih seen
    | some h =>
      by_cases he : h = ""
      · simpa only [collectLoop, hn, if_pos he] using ih seen
      · by_cases hs : resolve h ∈ seen
        · simpa only [collectLoop, hn, if_neg he, if_pos hs] using ih seen
        · have ihs := ih (resolve h :: seen)
          simp only [collectLoop, hn, if_neg he, if_neg hs,
            List.map_cons, List.nodup_cons]
          constructor
          · intro u hu
            rcases List.mem_cons.1 hu with rfl | hu
            · exact hs
            · intro hin
              exact (ihs.1 u hu) (List.mem_cons_of_mem _ hin)
          · refine ⟨?_, ihs.2⟩
            intro hin
            exact (ihs.1 _ hin) (List.mem_cons_self _ _)

/-- Every emitted record carries the given site and category, and a URL that
is some matched reference resolved against the base. -/
theorem collectLoop_fields (base cat : String) (resolve : String → String) :
    ∀ (links : List Node) (seen : List String),
      ∀ rec ∈ collectLoop base cat resolve links seen,
        rec.website = base ∧ rec.category = cat ∧
          ∃ n ∈ links, ∃ h, hrefOf n = some h ∧ rec.article_url = resolve h := by
  intro links
  induction links with
  | nil => intro seen; simp [collectLoop]
  | cons n rest ih =>
    intro seen rec hrec
    cases hn : hrefOf n with
    | none =>
      simp only [collectLoop, hn] at hrec
      obtain ⟨h1, h2, m, hm, h', hh', hu⟩ := ih seen rec hrec
      exact ⟨h1, h2, m, List.mem_cons_of_mem _ hm, h', hh', hu⟩
    | some h =>
      by_cases he : h = ""
      · simp only [collectLoop, hn, if_pos he] at hrec
        obtain ⟨h1, h2, m, hm, h', hh', hu⟩ := ih seen rec hrec
        exact ⟨h1, h2, m, List.mem_cons_of_mem _ hm, h', hh', hu⟩
      · by_cases hs : resolve h ∈ seen
        · simp only [collectLoop, hn, if_neg he, if_pos hs] at hrec
          obtain ⟨h1, h2, m, hm, h', hh', hu⟩ := ih seen rec hrec
          exact ⟨h1, h2, m, List.mem_cons_of_mem _ hm, h', hh', hu⟩
        · simp only [collectLoop, hn, if_neg he, if_neg hs] at hrec
          rcases List.mem_cons.1 hrec with hcur | htail
          · subst hcur
            exact ⟨rfl, rfl, n, List.mem_cons_self _ _, h, hn, rfl⟩
          · obtain ⟨h1, h2, m, hm, h', hh', hu⟩ := ih (resolve h :: seen) rec htail
            exact ⟨h1, h2, m, List.mem_cons_of_mem _ hm, h', hh', hu⟩

/-- When the resolved references are pairwise distinct and none is in `seen`,
the loop emits one record per reference, in first-seen order. -/
theorem collectLoop_all_fresh (base cat : String) (resolve : String → String) :
    ∀ (links : List Node) (seen : List String),
      (∀ n ∈ links, ∀ h, hrefOf n = some h → h ≠ "") →
      (((links.filterMap hrefOf).map resolve).Nodup) →
      (∀ h ∈ links.filterMap hrefOf, resolve h ∉ seen) →
      collectLoop base cat resolve links seen =
        (links.filterMap hrefOf).map (fun h => ⟨base, cat, resolve h⟩) := by
  intro links
  induction links with
  | nil => intro seen _ _ _; simp [collectLoop]
  | cons n rest ih =>
    intro seen hne hnd hfresh
    cases hn : hrefOf n with
    | none =>
      rw [List.filterMap_cons_none hn] at hnd hfresh ⊢
      simp only [collectLoop, hn]
      exact ih seen (fun m hm => hne m (List.mem_cons_of_mem _ hm)) hnd hfresh
    | some h =>
      have he : h ≠ "" := hne n (List.mem_cons_self _ _) h hn
      rw [List.filterMap_cons_some hn] at hnd hfresh ⊢
      have hs : resolve h ∉ seen := hfresh h (List.mem_cons_self _ _)
      simp only [collectLoop, hn, if_neg he, if_neg hs, List.map_cons]
      congr 1
      apply ih (resolve h :: seen) (fun m hm => hne m (List.mem_cons_of_mem _ hm))
        (List.Nodup.of_cons hnd)
      intro h' hh'
      simp only [List.mem_cons, not_or]
      constructor
      · intro heq
        rw [List.map_cons, List.nodup_cons] at hnd
        exact hnd.1 (heq ▸ List.mem_map_of_mem resolve hh')
      · exact hfresh h' (List.mem_cons_of_mem _ hh')

/-- Destructuring a successful extraction: every field of the record is the
value of its own rule, evaluated independently on the document. -/
theorem extractMetadata_ok {doc : List Node} {r : ArticleMetadata}
    (h : extractMetadata doc = .ok r) :
    r.title = title_rule doc ∧ summary_rule doc = .ok r.summary ∧
    r.publish_date = publish_date_rule doc ∧
    article_image_rule doc = .ok r.article_image ∧
    r.article_content = article_content_rule doc ∧
    r.image_credit = image_credit_rule doc ∧
    r.tags = String.intercalate ", " (tags_rule doc) := by
  cases hs : summary_rule doc with
  | error e => simp [extractMetadata, hs] at h
  | ok s =>
    cases hi : article_image_rule doc with
    | error e => simp [extractMetadata, hs, hi] at h
    | ok i =>
      simp only [extractMetadata, hs, hi] at h
      injection h with hr
      subst hr
      exact ⟨rfl, rfl, rfl, rfl, rfl, rfl, rfl⟩

/-- Completeness of the write loop: any matched reference with a nonempty
`href` whose resolved URL is not yet seen shows up among the emitted URLs. -/
theorem collectLoop_complete (base cat : String) (resolve : String → String) :
    ∀ (links : List Node) (seen : List String) (n : Node) (h : String),
      n ∈ links → hrefOf n = some h → h ≠ "" → resolve h ∉ seen →
      resolve h ∈ (collectLoop base cat resolve links seen).map (·.article_url) := by
  intro links
  induction links with
  | nil => intro seen n h hn; simp at hn
  | cons m rest ih =>
    intro seen n h hn hh hne hseen
    rcases List.mem_cons.1 hn with rfl | hn
    · simp [collectLoop, hh, hne, hseen]
    · cases hm : hrefOf m with
      | none =>
        simp only [collectLoop, hm]
        exact ih seen n h hn hh hne hseen
      | some g =>
        by_cases hge : g = ""
        · simp only [collectLoop, hm, if_pos hge]
          exact ih seen n h hn hh hne hseen
        · by_cases hgs : resolve g ∈ seen
          · simp only [collectLoop, hm, if_neg hge, if_pos hgs]
            exact ih seen n h hn hh hne hseen
          · simp only [collectLoop, hm, if_neg hge, if_neg hgs, List.map_cons]
            by_cases heq : resolve h = resolve g
            · exact heq ▸ List.mem_cons_self _ _
            · apply List.mem_cons_of_mem
              apply ih (resolve g :: seen) n h hn hh hne
              simp only [List.mem_cons, not_or]
              exact ⟨heq, hseen⟩

/-!
The claims.
-/

/-- C1: on every index page, the Link Collector emits records whose URLs are
pairwise distinct (dedup by exact string equality), each carrying the given
site and category and a matched `/article/` reference resolved against the
base; every matched reference's resolved URL is represented; and when the
matched references resolve to pairwise distinct absolute URLs it emits
exactly one record per reference, in first-seen document order. -/
theorem C1_collect_links :
    ∀ (base cat : String) (resolve : String → String) (doc : List Node),
      (((collectRecords base cat resolve doc).map (·.article_url)).Nodup) ∧
      (∀ rec ∈ collectRecords base cat resolve doc,
        rec.website = base ∧ rec.category = cat ∧
          ∃ h ∈ (article_links doc).filterMap hrefOf, rec.article_url = resolve h) ∧
      (∀ n ∈ article_links doc, ∀ h, hrefOf n = some h →
        resolve h ∈ (collectRecords base cat resolve doc).map (·.article_url)) ∧
      ((((article_links doc).filterMap hrefOf).map resolve).Nodup →
        collectRecords base cat resolve doc =
          ((article_links doc).filterMap hrefOf).map
            (fun h => ⟨base, cat, resolve h⟩)) := by
  intro base cat resolve doc
  have hanchor : ∀ n ∈ article_links doc, ∀ h, hrefOf n = some h → h ≠ "" := by
    intro n hn h hh
    obtain ⟨s, hs, hc⟩ := isArticleAnchor_href (findAllF_mem isArticleAnchor doc n hn)
    rw [hs] at hh
    injection hh with hh
    subst hh
    exact strContains_article_ne_empty hc
  refine ⟨(collectLoop_nodup base cat resolve (article_links doc) []).2, ?_, ?_, ?_⟩
  · intro rec hrec
    obtain ⟨h1, h2, n, hn, h, hh, hu⟩ :=
      collectLoop_fields base cat resolve (article_links doc) [] rec hrec
    exact ⟨h1, h2, h, List.mem_filterMap.2 ⟨n, hn, hh⟩, hu⟩
  · intro n hn h hh
    exact collectLoop_complete base cat resolve (article_links doc) [] n h hn hh
      (hanchor n hn h hh) (List.not_mem_nil _)
  · intro hnd
    exact collectLoop_all_fresh base cat resolve (article_links doc) [] hanchor hnd
      (fun h _ => List.not_mem_nil _)

/-- C1 witness: on a concrete index page with two distinct `/article/`
anchors and one navigation anchor, the distinctness hypothesis holds and the
collector emits exactly the two resolved records in first-seen order. -/
theorem C1_collect_links_witness :
    ((((article_links docIndex2).filterMap hrefOf).map resolveEx).Nodup) ∧
    collectRecords "https://example.com" "culture" resolveEx docIndex2 =
      ((article_links docIndex2).filterMap hrefOf).map
        (fun h => ⟨"https://example.com", "culture", resolveEx h⟩) :=
  ⟨by decide,
    (C1_collect_links "https://example.com" "culture" resolveEx docIndex2).2.2.2
      (by decide)⟩

/-- C2: the claim that no extraction rule ever raises is contradicted by the
code: on a document whose matched meta-description tag has no `content`
attribute, line 83 `summary_tag['content']` raises `KeyError` and the whole
extraction aborts instead of degrading to a sentinel. -/
theorem C2_no_rule_raises_code_bug :
    summary_rule docKeyErr = .error "KeyError: content" ∧
    extractMetadata docKeyErr = .error "KeyError: content" :=
  ⟨rfl, rfl⟩

/-- C3 counterexample: with the index fetch failing and a handoff file left
behind by an earlier run, `__main__` still proceeds to the processing stage,
which extracts the stale article and writes an output file — the run does not
terminate without article extraction as the claim states. -/
theorem C3_fatal_fetch_counterexample :
    (mainRun (.err "timeout") fetchA resolveEx tsFix
        "https://example.com" "culture" "links.csv" fsStale).2.2 =
      .ran true
        [⟨"json_output/example_com_culture_Big_News_20240101000000.json", metaA⟩]
        none := by
  decide

/-- C3 (amended): on an index fetch failure the error and its cause are
reported and no handoff file is produced (the filesystem is unchanged), but
the run is not terminated: `__main__` continues into the processing stage on
the same CSV name, which — when no handoff file exists at that path — reports
the missing file and extracts nothing; a file left by an earlier run would
still be processed. -/
theorem C3_fatal_fetch_amended :
    ∀ (fetchArticle : String → FetchRes) (resolve : String → String)
      (ts : Nat → String) (base cat name : String) (fs : FileSys) (cause : String),
      mainRun (.err cause) fetchArticle resolve ts base cat name fs =
        (fs, .fetchError cause,
          process_csv_to_json fetchArticle ts fs name (website_name_of base) cat) ∧
      (readCsvFile fs name = none →
        (mainRun (.err cause) fetchArticle resolve ts base cat name fs).2.2 =
          .missingCsv) := by
  intro fetchArticle resolve ts base cat name fs cause
  refine ⟨rfl, ?_⟩
  intro h
  simp [mainRun, scrape_category_to_csv, process_csv_to_json, h]

/-- C3 witness: with an empty filesystem, a failed index fetch reaches the
processing stage, which finds no CSV and processes nothing. -/
theorem C3_fatal_fetch_amended_witness :
    readCsvFile fsEmpty "links.csv" = none ∧
    (mainRun (.err "timeout") fetchA resolveEx tsFix
        "https://example.com" "culture" "links.csv" fsEmpty).2.2 = .missingCsv :=
  ⟨rfl, (C3_fatal_fetch_amended fetchA resolveEx tsFix "https://example.com"
      "culture" "links.csv" fsEmpty "timeout").2 rfl⟩

/-- C4: a fetch failure on one article is isolated to it: the extractor
returns the `None` failure marker for that URL, and the batch result — the
files written and the final outcome — equals that of the batch without the
failing row, so nothing is written for it and every other row is still
fetched, extracted and persisted. -/
theorem C4_failure_isolation :
    ∀ (fetch : String → FetchRes) (ts : Nat → String) (site cat : String)
      (pre post : List LinkRecord) (r : LinkRecord) (cause : String) (k : Nat),
      fetch r.article_url = .err cause →
      scrape_article_metadata fetch r.article_url = none ∧
      processRows fetch ts site cat (pre ++ r :: post) k =
        processRows fetch ts site cat (pre ++ post) k := by
  intro fetch ts site cat pre post r cause k hf
  constructor
  · simp [scrape_article_metadata, hf]
  · induction pre generalizing k with
    | nil =>
      simp only [List.nil_append, processRows, scrape_article_metadata, hf]
    | cons p rest ih =>
      simp only [List.cons_append, processRows]
      cases scrape_article_metadata fetch p.article_url with
      | none => exact ih k
      | some res =>
        cases res with
        | error e => rfl
        | ok m =>
          simp only [List.append_eq]
          rw [ih (k + 1)]

/-- C4 witness: in a concrete three-row batch whose middle article gets HTTP
500, the failure marker is returned for it and the batch result equals that
of the two-row batch without it. -/
theorem C4_failure_isolation_witness :
    fetchMixed rowBad.article_url = .err "HTTP 500" ∧
    scrape_article_metadata fetchMixed rowBad.article_url = none ∧
    processRows fetchMixed tsFix "example_com" "culture"
        [rowGood1, rowBad, rowGood2] 0 =
      processRows fetchMixed tsFix "example_com" "culture" [rowGood1, rowGood2] 0 := by
  refine ⟨rfl, ?_, ?_⟩
  · exact (C4_failure_isolation fetchMixed tsFix "example_com" "culture"
      [rowGood1] [rowGood2] rowBad "HTTP 500" 0 rfl).1
  · exact (C4_failure_isolation fetchMixed tsFix "example_com" "culture"
      [rowGood1] [rowGood2] rowBad "HTTP 500" 0 rfl).2

/-- C5 counterexample: on a document whose only element with id
"main-content" is a `div`, the code falls back to the sentinel, while the
claim's container condition — "an element with id main-content" — collects
the paragraph text "x"; so the two disagree at this input. -/
theorem C5_article_content_counterexample :
    article_content_rule docDivMain = "Article content not found." ∧
    article_content_claimC5 docDivMain = "x" ∧
    (article_content_rule docDivMain != article_content_claimC5 docDivMain) = true := by
  decide

/-- C5 (amended): the article_content field equals: if a `main` element with
id "main-content" exists (the code requires the `main` tag, line 93), the
document-order newline-joined stripped texts of all paragraphs recursively
inside the first such element, paragraphs with empty stripped text dropped;
otherwise exactly the sentinel. Any produced record carries this value. -/
theorem C5_article_content_amended :
    (∀ doc : List Node, article_content_rule doc = article_content_amended doc) ∧
    (∀ (doc : List Node) (r : ArticleMetadata), extractMetadata doc = .ok r →
      r.article_content = article_content_amended doc) := by
  have heq : ∀ doc : List Node, article_content_rule doc = article_content_amended doc := by
    intro doc
    unfold article_content_rule article_content_amended
    cases findF (fun n => isTag "main" n && hasAttrVal "id" "main-content" n) doc with
    | none => rfl
    | some m => simp [List.filter_map, Function.comp_def]
  refine ⟨heq, ?_⟩
  intro doc r hr
  exact (extractMetadata_ok hr).2.2.2.2.1.trans (heq doc)

/-- C5 witness: the fixture document has a `main` content container and its
extracted record carries the joined paragraph texts. -/
theorem C5_article_content_amended_witness :
    extractMetadata docA = .ok metaA ∧
    metaA.article_content = article_content_amended docA :=
  ⟨rfl, C5_article_content_amended.2 docA metaA rfl⟩

/-- C6: the tags field comes from the first h2 whose sole string content is
exactly "Related Topics": its first following sibling `ul` contributes the
stripped text of every link inside it, in document order; an absent heading
or list yields the empty sequence; the record stores the comma-joined form,
"Business, Markets" on the fixture with tags ["Business", "Markets"]. -/
theorem C6_tags :
    (∀ (doc : List Node) (r : ArticleMetadata), extractMetadata doc = .ok r →
      r.tags = String.intercalate ", " (tags_rule doc)) ∧
    (∀ doc : List Node,
      findWithSiblings isRelatedTopicsH2 doc = none → tags_rule doc = []) ∧
    (∀ (doc : List Node) (h2 : Node) (sibs : List Node),
      findWithSiblings isRelatedTopicsH2 doc = some (h2, sibs) →
      (sibs.find? (isTag "ul") = none → tags_rule doc = []) ∧
      (∀ ul, sibs.find? (isTag "ul") = some ul →
        tags_rule doc = (findAllF (isTag "a") (childrenOf ul)).map getTextStrip)) ∧
    (tags_rule docA = ["Business", "Markets"] ∧
      String.intercalate ", " (tags_rule docA) = "Business, Markets") := by
  refine ⟨?_, ?_, ?_, by decide, by decide⟩
  · intro doc r hr
    exact (extractMetadata_ok hr).2.2.2.2.2.2
  · intro doc h
    simp [tags_rule, h]
  · intro doc h2 sibs h
    constructor
    · intro hul
      simp [tags_rule, h, hul]
    · intro ul hul
      simp [tags_rule, h, hul]

/-- C6 witness: the fixture record's tags field is the comma-joined form of
the collected tag sequence. -/
theorem C6_tags_witness :
    extractMetadata docA = .ok metaA ∧
    metaA.tags = String.intercalate ", " (tags_rule docA) :=
  ⟨rfl, C6_tags.1 docA metaA rfl⟩

/-- C7: on a document without any h1 the title is exactly "Title not found",
and every other field of a produced record is still the value of its own
rule on the markup that is present. -/
theorem C7_title_fallback :
    ∀ doc : List Node, findF (isTag "h1") doc = none →
      title_rule doc = "Title not found" ∧
      ∀ r : ArticleMetadata, extractMetadata doc = .ok r →
        r.title = "Title not found" ∧
        summary_rule doc = .ok r.summary ∧
        r.publish_date = publish_date_rule doc ∧
        article_image_rule doc = .ok r.article_image ∧
        r.article_content = article_content_rule doc ∧
        r.image_credit = image_credit_rule doc ∧
        r.tags = String.intercalate ", " (tags_rule doc) := by
  intro doc h
  have ht : title_rule doc = "Title not found" := by simp [title_rule, h]
  refine ⟨ht, ?_⟩
  intro r hr
  obtain ⟨h1, h2, h3, h4, h5, h6, h7⟩ := extractMetadata_ok hr
  exact ⟨h1.trans ht, h2, h3, h4, h5, h6, h7⟩

/-- C7 witness: the h1-less fixture extracts to a record whose title is the
sentinel while the other six fields carry the fixture's values. -/
theorem C7_title_fallback_witness :
    findF (isTag "h1") docNoH1 = none ∧
    extractMetadata docNoH1 = .ok metaNoH1 ∧
    metaNoH1.title = "Title not found" :=
  ⟨rfl, rfl, ((C7_title_fallback docNoH1 rfl).2 metaNoH1 rfl).1⟩

/-- C8: a successfully fetched index page with zero matching anchors ends the
Collector in the `noLinksFound` outcome: nothing is raised, no file is
written, and the outcome differs from every success-with-rows outcome and
from every fetch-failure outcome. -/
theorem C8_no_links_found :
    ∀ (resolve : String → String) (base cat name : String) (fs : FileSys)
      (doc : List Node),
      (article_links doc).isEmpty = true →
      scrape_category_to_csv (.ok doc) resolve base cat name fs = (fs, .noLinksFound) ∧
      (∀ k, CollectOutcome.noLinksFound = CollectOutcome.saved k → False) ∧
      (∀ c, CollectOutcome.noLinksFound = CollectOutcome.fetchError c → False) := by
  intro resolve base cat name fs doc h
  refine ⟨?_, ?_, ?_⟩
  · simp [scrape_category_to_csv, h]
  · intro k hk
    exact CollectOutcome.noConfusion hk
  · intro c hc
    exact CollectOutcome.noConfusion hc

/-- C8 witness: a page with no anchors at all gives the `noLinksFound`
outcome with the filesystem untouched. -/
theorem C8_no_links_found_witness :
    (article_links docDivMain).isEmpty = true ∧
    scrape_category_to_csv (.ok docDivMain) resolveEx "https://example.com"
        "culture" "links.csv" fsEmpty = (fsEmpty, .noLinksFound) :=
  ⟨rfl, (C8_no_links_found resolveEx "https://example.com" "culture" "links.csv"
      fsEmpty docDivMain rfl).1⟩

/-- C9 counterexample: line 150 REPLACES every character that is neither a
word character nor a hyphen with an underscore instead of stripping it: on
the title "a b" the code's fragment is "a_b" while the claim's stripping
gives "ab", and the persisted name carries the replaced form. -/
theorem C9_filename_counterexample :
    safe_title "a b" = "a_b" ∧ sanitize_claimC9 "a b" = "ab" ∧
    (safe_title "a b" != sanitize_claimC9 "a b") = true ∧
    outputFileName "example_com" "culture" "a b" "20240101000000" =
      "example_com_culture_a_b_20240101000000.json" := by
  decide

/-- C9 (amended): the persisted file of a successful record is named
`{site}_{category}_{safe-title}_{timestamp}.json` under the fixed
`json_output` directory (created in the `ran` branch of the processing
stage), where the safe title replaces every character that is neither a word
character nor a hyphen with an underscore and truncates to 50 characters —
hence it is at most 50 characters, all word characters or hyphens. -/
theorem C9_output_naming_amended :
    ∀ (t site cat tsv : String),
      (safe_title t).length ≤ 50 ∧
      (∀ c ∈ (safe_title t).toList, (isWordChar c || c = '-') = true) ∧
      outputPath site cat t tsv =
        "json_output/" ++ site ++ "_" ++ cat ++ "_" ++ safe_title t ++ "_" ++
          tsv ++ ".json" ∧
      (∀ (fetch : String → FetchRes) (ts : Nat → String) (row : LinkRecord)
        (rest : List LinkRecord) (k : Nat) (m : ArticleMetadata),
        scrape_article_metadata fetch row.article_url = some (.ok m) →
        processRows fetch ts site cat (row :: rest) k =
          (⟨outputPath site cat m.title (ts k), m⟩ ::
              (processRows fetch ts site cat rest (k + 1)).1,
            (processRows fetch ts site cat rest (k + 1)).2)) ∧
      (∀ (fetch : String → FetchRes) (ts : Nat → String) (fs : FileSys)
        (name : String) (rows : List LinkRecord),
        readCsvFile fs name = some rows →
        process_csv_to_json fetch ts fs name site cat =
          .ran true (processRows fetch ts site cat rows 0).1
            (processRows fetch ts site cat rows 0).2) := by
  intro t site cat tsv
  refine ⟨?_, ?_, rfl, ?_, ?_⟩
  · show ((t.toList.map fun c =>
        if isWordChar c || c = '-' then c else '_').take 50).length ≤ 50
    rw [List.length_take]
    exact min_le_left _ _
  · intro c hc
    have hc2 := List.mem_of_mem_take
      (show c ∈ (t.toList.map fun c =>
        if isWordChar c || c = '-' then c else '_').take 50 from hc)
    obtain ⟨a, _, ha⟩ := List.mem_map.1 hc2
    by_cases hcond : (isWordChar a || a = '-') = true
    · rw [if_pos hcond] at ha
      subst ha
      exact hcond
    · rw [if_neg hcond] at ha
      subst ha
      decide
  · intro fetch ts row rest k m hm
    simp only [processRows, hm]
  · intro fetch ts fs name rows hr
    simp only [process_csv_to_json, hr]

/-- C9 witness: processing a concrete successful row writes one file whose
path is the output directory plus the assembled name. -/
theorem C9_output_naming_amended_witness :
    scrape_article_metadata fetchA rowGood1.article_url = some (.ok metaA) ∧
    processRows fetchA tsFix "example_com" "culture" [rowGood1] 0 =
      ([⟨outputPath "example_com" "culture" metaA.title (tsFix 0), metaA⟩], none) := by
  refine ⟨rfl, ?_⟩
  have h := (C9_output_naming_amended metaA.title "example_com" "culture"
      (tsFix 0)).2.2.2.1 fetchA tsFix rowGood1 [] 0 metaA rfl
  simpa [processRows] using h

/-- C10: a missing handoff CSV is caught by the processing stage, which
reports it and returns: no article is processed, no output is written, and
the outcome differs from every outcome of an actual run. -/
theorem C10_missing_csv :
    ∀ (fetch : String → FetchRes) (ts : Nat → String) (fs : FileSys)
      (name site cat : String),
      readCsvFile fs name = none →
      process_csv_to_json fetch ts fs name site cat = .missingCsv ∧
      (∀ d outs err, ProcResult.missingCsv = ProcResult.ran d outs err → False) := by
  intro fetch ts fs name site cat h
  refine ⟨by simp [process_csv_to_json, h], ?_⟩
  intro d outs err hco
  exact ProcResult.noConfusion hco

/-- C10 witness: on the empty filesystem the processing stage reports the
missing CSV. -/
theorem C10_missing_csv_witness :
    readCsvFile fsEmpty "links.csv" = none ∧
    process_csv_to_json fetchA tsFix fsEmpty "links.csv" "example_com" "culture" =
      .missingCsv :=
  ⟨rfl, (C10_missing_csv fetchA tsFix fsEmpty "links.csv" "example_com"
      "culture" rfl).1⟩
